import Mathlib

/-!
# Verification of the composite index application

Shallow embedding of the weighted composite aggregation engine of
`src/app.py` (classes `PlotManager`, `StreamlitApp`) and the repository
layer of `src/db.py` (class `DatabaseBigQuery`).

Modelling choices, faithful to the source:

* `observation_date` values (pandas `Timestamp`s, produced by
  `pd.to_datetime`) are modelled as calendar dates `⟨year, month, day⟩`
  compared lexicographically, which is exactly how timestamps compare.
* `adjusted_index_value` values are Python floats; they are modelled as
  exact rationals `ℚ` (the spec makes no precision guarantee beyond
  standard arithmetic, so the claims are about the ideal arithmetic).
* A pandas `DataFrame` holding the two columns
  `observation_date, adjusted_index_value` is a list of rows
  `List (Date × ℚ)` in frame order.  The *column-less* empty frame
  `pd.DataFrame()` produced by `process_data` when no weighted frame
  exists is distinguished from a two-column frame with zero rows by the
  type `AggFrame`, because the two behave differently downstream
  (column access on `pd.DataFrame()` raises `KeyError`).
* The BigQuery warehouse behind `DatabaseBigQuery` is a `Database`
  value: `series_details` is the `marts.ppi_series_details` lookup of
  `fetch_series_data` and `adjusted_2020` is the
  `marts.ppi_adjusted_2020` lookup of `fetch_timeseries_data`.
-/

namespace CompositeIndex

/-- A calendar date, the model of one `observation_date` timestamp. -/
structure Date where
  year : Nat
  month : Nat
  day : Nat
deriving DecidableEq, Repr

/-- Timestamp order: lexicographic on (year, month, day). -/
def Date.le (a b : Date) : Prop :=
  a.year < b.year ∨
    (a.year = b.year ∧ (a.month < b.month ∨ (a.month = b.month ∧ a.day ≤ b.day)))

instance : DecidableRel Date.le := fun a b => by
  unfold Date.le
  infer_instance

instance : IsTotal Date Date.le where
  total a b := by
    rcases a with ⟨ay, am, ad⟩
    rcases b with ⟨by', bm, bd⟩
    simp only [Date.le]
    omega

instance : IsTrans Date Date.le where
  trans a b c hab hbc := by
    rcases a with ⟨ay, am, ad⟩
    rcases b with ⟨by', bm, bd⟩
    rcases c with ⟨cy, cm, cd⟩
    simp only [Date.le] at hab hbc ⊢
    omega

instance : IsAntisymm Date Date.le where
  antisymm a b hab hba := by
    rcases a with ⟨ay, am, ad⟩
    rcases b with ⟨by', bm, bd⟩
    simp only [Date.le] at hab hba
    simp only [Date.mk.injEq]
    omega

instance : IsRefl Date Date.le where
  refl _ := Or.inr ⟨rfl, Or.inr ⟨rfl, le_refl _⟩⟩

/-- One row of a two-column frame `(observation_date, adjusted_index_value)`. -/
abbrev Row := Date × ℚ

/-- A time series: the rows of a two-column frame, in frame order.
Repository order is not guaranteed (spec §4.3 step 1). -/
abbrev TimeSeries := List Row

/-- Row comparison used by `sort_values(by='observation_date')`:
compare on the date column only. -/
def rowLe (a b : Row) : Prop := Date.le a.1 b.1

instance : DecidableRel rowLe := fun a b =>
  inferInstanceAs (Decidable (Date.le a.1 b.1))

instance : IsTotal Row rowLe where
  total a b := IsTotal.total (r := Date.le) a.1 b.1

instance : IsTrans Row rowLe where
  trans _ _ _ hab hbc := Trans.trans (r := Date.le) hab hbc

/-- One user selection tuple `(category_2, category_3, weight %)` as
gathered by `gather_user_inputs` (`selection[0]`, `selection[1]`,
`selection[2]` in `process_data`). -/
structure Selection where
  category_2 : String
  category_3 : String
  weight_percent : ℚ
deriving DecidableEq, Repr

/-- The data warehouse behind `DatabaseBigQuery`:
`series_details c2 c3` is the ordered `series_id` result list of the
`marts.ppi_series_details` query for the pair, and `adjusted_2020 i` is
the ordered row list of the `marts.ppi_adjusted_2020` query for one
`series_id`. -/
structure Database where
  series_details : String → String → List String
  adjusted_2020 : String → TimeSeries

/-- `DatabaseBigQuery.fetch_series_data` (src/db.py:35-51): returns the
list of `series_id`s matching `(category_2, category_3)`. -/
def fetch_series_data (db : Database) (category_2 category_3 : String) : List String :=
  db.series_details category_2 category_3

/-- `DatabaseBigQuery.fetch_timeseries_data` (src/db.py:54-62): receives
the whole `series_id` *list* but queries with `series_id[0]` only, so
only the first identifier is ever fetched.  (`process_data` only calls
it with a non-empty list; `headI` stands for Python's `[0]` there.) -/
def fetch_timeseries_data (db : Database) (series_id : List String) : TimeSeries :=
  db.adjusted_2020 series_id.headI

/-- The time series fetched for one surviving selection: resolve the
category pair, then fetch the first identifier's rows. -/
def fetchedSeries (db : Database) (s : Selection) : TimeSeries :=
  fetch_timeseries_data db (fetch_series_data db s.category_2 s.category_3)

/-- The `adjusted_index_value` weighting step (src/app.py:120):
`timeseries_data['adjusted_index_value'] * (selection[2]/100)`. -/
def weightSeries (w : ℚ) (ts : TimeSeries) : TimeSeries :=
  ts.map (fun r => (r.1, r.2 * (w / 100)))

/-- Sum of the `adjusted_index_value` entries of the rows whose
`observation_date` equals `d` (the group sum of one `groupby` bucket). -/
def sumAt (rows : List Row) (d : Date) : ℚ :=
  ((rows.filter (fun r => decide (r.1 = d))).map Prod.snd).sum

/-- `groupby('observation_date').sum().reset_index()` (src/app.py:125):
one row per distinct date, dates in ascending order (pandas `groupby`
sorts its keys), each carrying the sum of the values grouped under it. -/
def groupbySum (rows : List Row) : List Row :=
  (List.insertionSort Date.le ((rows.map Prod.fst).dedup)).map
    (fun d => (d, sumAt rows d))

/-- The composite frame returned by `process_data`: either a two-column
frame, or the column-less `pd.DataFrame()` of the degenerate branch
(src/app.py:128). -/
inductive AggFrame where
  | emptyFrame : AggFrame
  | table : List Row → AggFrame
deriving DecidableEq, Repr

/-- The rows of the composite frame (a column-less frame has none). -/
def compositeRows : AggFrame → List Row
  | .emptyFrame => []
  | .table rows => rows

/-- The aggregation step of `process_data` (src/app.py:124-128):
`pd.concat(weighted_dataframes).groupby('observation_date').sum()
.reset_index()` followed by `sort_values(by='observation_date')` when
`weighted_dataframes` is non-empty, and `pd.DataFrame()` otherwise. -/
def aggregate (weighted_dataframes : List TimeSeries) : AggFrame :=
  if weighted_dataframes.isEmpty then .emptyFrame
  else .table (List.insertionSort rowLe (groupbySum weighted_dataframes.flatten))

/-- The per-selection loop of `StreamlitApp.process_data`
(src/app.py:105-121), accumulating
`(individual_indexes, index_categories, index_ids, weighted_dataframes)`.
The Python loop appends at the back while walking the selections in
order, which is the same as consing the head selection's entries onto
the result for the remaining selections. -/
def processLoop (db : Database) :
    List Selection → List TimeSeries × List String × List String × List TimeSeries
  | [] => ([], [], [], [])
  | selection :: rest =>
    let acc := processLoop db rest
    let series_id := fetch_series_data db selection.category_2 selection.category_3
    if series_id.isEmpty then acc
    else
      let timeseries_data := fetch_timeseries_data db series_id
      (List.insertionSort rowLe timeseries_data :: acc.1,
       selection.category_3 :: acc.2.1,
       series_id.headI :: acc.2.2.1,
       weightSeries selection.weight_percent timeseries_data :: acc.2.2.2)

/-- `StreamlitApp.process_data` (src/app.py:96-130): run the selection
loop, then aggregate the weighted frames; returns
`(aggregated_index, individual_indexes, index_categories, index_ids)`. -/
def process_data (db : Database) (selections : List Selection) :
    AggFrame × List TimeSeries × List String × List String :=
  let acc := processLoop db selections
  (aggregate acc.2.2.2, acc.1, acc.2.1, acc.2.2.1)

/-- The selections that survive resolution: those whose
`fetch_series_data` result is non-empty (`if series_id:` at
src/app.py:108). -/
def survivors (db : Database) (selections : List Selection) : List Selection :=
  selections.filter (fun s => !(fetch_series_data db s.category_2 s.category_3).isEmpty)

/-- Gregorian leap-year test, as pandas applies it when rolling an
invalid Feb 29 result of a `DateOffset` shift. -/
def isLeapYear (y : Nat) : Bool :=
  y % 4 == 0 && (y % 100 != 0 || y % 400 == 0)

/-- `last_date - pd.DateOffset(years=5)` (src/app.py:20): calendar-aware
subtraction of five years; a Feb 29 source date whose target year is not
a leap year is clamped to Feb 28. -/
def subYears5 (dt : Date) : Date :=
  let y := dt.year - 5
  if dt.month = 2 ∧ dt.day = 29 ∧ isLeapYear y = false then ⟨y, 2, 28⟩
  else ⟨y, dt.month, dt.day⟩

/-- `aggregated_index['observation_date'].max()` (src/app.py:19) on a
two-column frame: the maximum date of the rows (meaningful only when the
frame has rows, which is the only case the claims exercise). -/
def colMax (rows : List Row) : Date :=
  match rows with
  | [] => ⟨0, 0, 0⟩
  | r :: rest => (rest.map Prod.fst).foldl (fun acc d => if Date.le acc d then d else acc) r.1

/-- The data transformation of `PlotManager.generate_plot`
(src/app.py:18-33): read the `observation_date` column of the composite
frame — a `KeyError` on the column-less `pd.DataFrame()` — then keep the
composite rows and, per individual frame, the rows with
`observation_date >= last_date - DateOffset(years=5)`.  Returns the
(filtered composite rows, filtered individual row lists) that are
plotted; boolean-mask selection builds new frames, the inputs are not
mutated. -/
def generate_plot_data (aggregated_index : AggFrame)
    (individual_indexes : List TimeSeries) :
    Except String (List Row × List TimeSeries) :=
  match aggregated_index with
  | .emptyFrame => .error "KeyError: observation_date"
  | .table rows =>
    let start_date := subYears5 (colMax rows)
    .ok (rows.filter (fun r => decide (Date.le start_date r.1)),
         individual_indexes.map (fun ts => ts.filter (fun r => decide (Date.le start_date r.1))))

/-- The identifier actually used for a selection: `series_id[0]` of the
resolution result (src/app.py:116). -/
def firstId (db : Database) (s : Selection) : String :=
  (fetch_series_data db s.category_2 s.category_3).headI

/-- The value a series carries on a date: the value of its (first) row
on that date, and `0` when the series has no row there. -/
def lookupVal (ts : TimeSeries) (d : Date) : ℚ :=
  match ts.find? (fun r => decide (r.1 = d)) with
  | some r => r.2
  | none => 0

/-- The warehouse with repository calls that can fail: each lookup
either returns its result or raises (models the exceptions a
`pd.read_sql` call against BigQuery can raise inside
`fetch_series_data` / `fetch_timeseries_data`). -/
structure FallibleDb where
  series_details : String → String → Except String (List String)
  adjusted_2020 : String → Except String TimeSeries

/-- `fetch_series_data` when the underlying call can raise. -/
def fetch_series_dataE (db : FallibleDb) (category_2 category_3 : String) :
    Except String (List String) :=
  db.series_details category_2 category_3

/-- `fetch_timeseries_data` when the underlying call can raise; as in
src/db.py:62 it queries with `series_id[0]` only. -/
def fetch_timeseries_dataE (db : FallibleDb) (series_id : List String) :
    Except String TimeSeries :=
  db.adjusted_2020 series_id.headI

/-- The `process_data` loop over a fallible warehouse.  The Python body
of `process_data` contains no `try`/`except`, so the first exception
raised by a repository call aborts the whole loop; `Except` propagation
models exactly that. -/
def processLoopE (db : FallibleDb) :
    List Selection →
      Except String (List TimeSeries × List String × List String × List TimeSeries)
  | [] => .ok ([], [], [], [])
  | selection :: rest => do
    let series_id ← fetch_series_dataE db selection.category_2 selection.category_3
    if series_id.isEmpty then processLoopE db rest
    else
      let timeseries_data ← fetch_timeseries_dataE db series_id
      let acc ← processLoopE db rest
      pure (List.insertionSort rowLe timeseries_data :: acc.1,
            selection.category_3 :: acc.2.1,
            series_id.headI :: acc.2.2.1,
            weightSeries selection.weight_percent timeseries_data :: acc.2.2.2)

/-- `process_data` over a fallible warehouse: an exception raised by any
repository call propagates to the caller (there is no handler in
src/app.py:96-130). -/
def process_dataE (db : FallibleDb) (selections : List Selection) :
    Except String (AggFrame × List TimeSeries × List String × List String) := do
  let acc ← processLoopE db selections
  pure (aggregate acc.2.2.2, acc.1, acc.2.1, acc.2.2.1)

/-- A warehouse on which every lookup succeeds, built from a total one. -/
def FallibleDb.ofDatabase (db : Database) : FallibleDb where
  series_details := fun c2 c3 => .ok (db.series_details c2 c3)
  adjusted_2020 := fun i => .ok (db.adjusted_2020 i)

/-! Concrete data used by the witness theorems. -/

/-- The warehouse of the spec's end-to-end scenario (§8.7): Steel and
Oil series with two monthly observations each. -/
def dbScenario : Database where
  series_details := fun c2 c3 =>
    if c2 = "Metals" ∧ c3 = "Steel" then ["S1"]
    else if c2 = "Energy" ∧ c3 = "Oil" then ["O1"]
    else []
  adjusted_2020 := fun i =>
    if i = "S1" then [(⟨2021, 1, 1⟩, 10), (⟨2021, 2, 1⟩, 12)]
    else if i = "O1" then [(⟨2021, 1, 1⟩, 20), (⟨2021, 2, 1⟩, 22)]
    else []

/-- The selections of the spec's end-to-end scenario (§8.7). -/
def selScenario : List Selection :=
  [⟨"Metals", "Steel", 60⟩, ⟨"Energy", "Oil", 40⟩]

/-- A warehouse on which every category pair resolves to no series. -/
def dbNoSeries : Database where
  series_details := fun _ _ => []
  adjusted_2020 := fun _ => []

/-- A warehouse whose resolution returns two identifiers; the second
one carries data that would change every output if it were fetched. -/
def dbTwoIds : Database where
  series_details := fun _ _ => ["id1", "id2"]
  adjusted_2020 := fun i =>
    if i = "id1" then [(⟨2022, 3, 1⟩, 7)]
    else if i = "id2" then [(⟨2022, 3, 1⟩, 999)]
    else []

/-- `dbTwoIds` with the data behind the discarded identifier `id2`
replaced; only `id1` agrees between the two warehouses. -/
def dbTwoIdsAlt : Database where
  series_details := fun _ _ => ["id1", "id2"]
  adjusted_2020 := fun i =>
    if i = "id1" then [(⟨2022, 3, 1⟩, 7)]
    else []

/-- A fallible warehouse on which every repository call raises. -/
def dbAllFail : FallibleDb where
  series_details := fun _ _ => .error "connection failure"
  adjusted_2020 := fun _ => .error "connection failure"

/-- A fallible warehouse on which the first selection's calls succeed
(Metals resolves to `S1`, whose fetch succeeds) while the time-series
fetch behind every other identifier raises. -/
def dbLateFail : FallibleDb where
  series_details := fun c2 _ =>
    if c2 = "Metals" then .ok ["S1"] else .ok ["O1"]
  adjusted_2020 := fun i =>
    if i = "S1" then .ok [(⟨2021, 1, 1⟩, 10)] else .error "read timeout"

/-- A selection used by several witnesses. -/
def selSteel : Selection := ⟨"Metals", "Steel", 60⟩

/-! ## Helper lemmas -/

/-- Date order is reflexive. -/
theorem Date.le_refl' (a : Date) : Date.le a a :=
  Or.inr ⟨rfl, Or.inr ⟨rfl, le_refl _⟩⟩

/-- Date order is transitive. -/
theorem Date.le_trans' {a b c : Date} (h1 : Date.le a b) (h2 : Date.le b c) :
    Date.le a c :=
  IsTrans.trans a b c h1 h2

/-- Date order is total. -/
theorem Date.le_total' (a b : Date) : Date.le a b ∨ Date.le b a :=
  IsTotal.total a b

/-- The weighting step touches only the value column: the date column
is unchanged. -/
theorem weightSeries_map_fst (w : ℚ) (ts : TimeSeries) :
    (weightSeries w ts).map Prod.fst = ts.map Prod.fst := by
  simp [weightSeries, List.map_map]

/-- Group sums split over frame concatenation. -/
theorem sumAt_append (l₁ l₂ : List Row) (d : Date) :
    sumAt (l₁ ++ l₂) d = sumAt l₁ d + sumAt l₂ d := by
  simp [sumAt, List.filter_append]

/-- Group sums over the concatenation of many frames are the sums of
the per-frame group sums. -/
theorem sumAt_flatten (dfs : List TimeSeries) (d : Date) :
    sumAt dfs.flatten d = (dfs.map (fun df => sumAt df d)).sum := by
  induction dfs with
  | nil => rfl
  | cons df rest ih => simp [List.flatten_cons, sumAt_append, ih]

/-- Weighting a series scales its group sum on every date. -/
theorem sumAt_weightSeries (w : ℚ) (ts : TimeSeries) (d : Date) :
    sumAt (weightSeries w ts) d = sumAt ts d * (w / 100) := by
  unfold sumAt weightSeries
  rw [List.filter_map]
  have hp : ((fun r : Row => decide (r.1 = d)) ∘ fun r : Row => (r.1, r.2 * (w / 100))) =
      fun r : Row => decide (r.1 = d) := rfl
  rw [hp, List.map_map]
  have hs : (Prod.snd ∘ fun r : Row => (r.1, r.2 * (w / 100))) =
      fun r : Row => r.2 * (w / 100) := rfl
  rw [hs]
  exact List.sum_map_mul_right _ Prod.snd _

/-- A series with no row on a date has group sum zero there. -/
theorem sumAt_eq_zero_of_not_mem {ts : TimeSeries} {d : Date}
    (h : d ∉ ts.map Prod.fst) : sumAt ts d = 0 := by
  unfold sumAt
  have hf : ts.filter (fun r => decide (r.1 = d)) = [] := by
    rw [List.filter_eq_nil_iff]
    intro r hr
    simp only [decide_eq_true_eq]
    intro hrd
    exact h (hrd ▸ List.mem_map_of_mem Prod.fst hr)
  rw [hf]
  rfl

/-- On a series with one value per date (the Time Series invariant of
spec §3), the group sum at a date is the row value there, or `0` when
the series has no row on that date. -/
theorem sumAt_eq_lookupVal {ts : TimeSeries}
    (h : (ts.map Prod.fst).Nodup) (d : Date) :
    sumAt ts d = lookupVal ts d := by
  induction ts with
  | nil => rfl
  | cons r rest ih =>
    rw [List.map_cons, List.nodup_cons] at h
    obtain ⟨hnm, hnd⟩ := h
    by_cases hrd : r.1 = d
    · have h0 : sumAt rest d = 0 :=
        sumAt_eq_zero_of_not_mem (by rw [← hrd]; exact hnm)
      have h0' : ((rest.filter (fun x => decide (x.1 = d))).map Prod.snd).sum = 0 := h0
      simp [sumAt, lookupVal, List.filter_cons, List.find?_cons, hrd, h0']
    · have ihv := ih hnd
      simp [sumAt, lookupVal, List.filter_cons, List.find?_cons, hrd] at ihv ⊢
      exact ihv

/-- Membership in the grouped frame: one entry per date occurring in
the input, carrying the group sum. -/
theorem mem_groupbySum_iff (rows : List Row) (d : Date) (v : ℚ) :
    (d, v) ∈ groupbySum rows ↔ d ∈ rows.map Prod.fst ∧ v = sumAt rows d := by
  unfold groupbySum
  rw [List.mem_map]
  constructor
  · rintro ⟨x, hx, hfx⟩
    have hx' : x = d := congrArg Prod.fst hfx
    subst hx'
    refine ⟨?_, (congrArg Prod.snd hfx).symm⟩
    exact List.mem_dedup.1 (((List.perm_insertionSort Date.le _).mem_iff).1 hx)
  · rintro ⟨hd, hv⟩
    exact ⟨d, ((List.perm_insertionSort Date.le _).mem_iff).2 (List.mem_dedup.2 hd),
      by rw [hv]⟩

/-- The date column of the grouped frame is the sorted deduplication of
the input's date column. -/
theorem groupbySum_map_fst (rows : List Row) :
    (groupbySum rows).map Prod.fst =
      List.insertionSort Date.le ((rows.map Prod.fst).dedup) := by
  unfold groupbySum
  rw [List.map_map]
  exact List.map_id _

/-- The grouped frame has no repeated date. -/
theorem groupbySum_dates_nodup (rows : List Row) :
    ((groupbySum rows).map Prod.fst).Nodup := by
  rw [groupbySum_map_fst]
  exact ((List.perm_insertionSort Date.le _).nodup_iff).2 (List.nodup_dedup _)

/-- A date occurs in the grouped frame exactly when it occurs in the
input frame. -/
theorem mem_groupbySum_dates (rows : List Row) (d : Date) :
    d ∈ (groupbySum rows).map Prod.fst ↔ d ∈ rows.map Prod.fst := by
  rw [groupbySum_map_fst, (List.perm_insertionSort Date.le _).mem_iff]
  exact List.mem_dedup

/-- With at least one weighted frame, the composite rows are the sorted
grouped concatenation. -/
theorem compositeRows_aggregate_of_ne_nil {wdfs : List TimeSeries} (h : wdfs ≠ []) :
    compositeRows (aggregate wdfs) =
      List.insertionSort rowLe (groupbySum wdfs.flatten) := by
  unfold aggregate
  rw [if_neg (by simp [List.isEmpty_iff, h])]
  rfl

/-- Row membership in the composite: a row per date of the
concatenation, carrying the total group sum. -/
theorem mem_aggregate_iff {wdfs : List TimeSeries} (h : wdfs ≠ []) (d : Date) (v : ℚ) :
    (d, v) ∈ compositeRows (aggregate wdfs) ↔
      d ∈ wdfs.flatten.map Prod.fst ∧ v = sumAt wdfs.flatten d := by
  rw [compositeRows_aggregate_of_ne_nil h,
    (List.perm_insertionSort rowLe _).mem_iff, mem_groupbySum_iff]

/-- The composite date axis is the outer union of the input frames'
date columns. -/
theorem aggregate_dates_mem {wdfs : List TimeSeries} (h : wdfs ≠ []) (d : Date) :
    d ∈ (compositeRows (aggregate wdfs)).map Prod.fst ↔
      ∃ df ∈ wdfs, d ∈ df.map Prod.fst := by
  rw [compositeRows_aggregate_of_ne_nil h,
    ((List.perm_insertionSort rowLe _).map Prod.fst).mem_iff,
    mem_groupbySum_dates, List.map_flatten, List.mem_flatten]
  constructor
  · rintro ⟨l, hl, hdl⟩
    obtain ⟨df, hdf, rfl⟩ := List.mem_map.1 hl
    exact ⟨df, hdf, hdl⟩
  · rintro ⟨df, hdf, hd⟩
    exact ⟨df.map Prod.fst, List.mem_map_of_mem _ hdf, hd⟩

/-- The composite has no repeated date. -/
theorem aggregate_dates_nodup {wdfs : List TimeSeries} (h : wdfs ≠ []) :
    ((compositeRows (aggregate wdfs)).map Prod.fst).Nodup := by
  rw [compositeRows_aggregate_of_ne_nil h]
  exact (((List.perm_insertionSort rowLe _).map Prod.fst).nodup_iff).2
    (groupbySum_dates_nodup _)

/-- Survival of the head selection depends on its resolution result. -/
theorem survivors_cons (db : Database) (s : Selection) (rest : List Selection) :
    survivors db (s :: rest) =
      if (fetch_series_data db s.category_2 s.category_3).isEmpty then
        survivors db rest
      else s :: survivors db rest := by
  unfold survivors
  rw [List.filter_cons]
  by_cases h : (fetch_series_data db s.category_2 s.category_3).isEmpty
  · simp [h]
  · simp [h]

/-- Survivors of a concatenation are the concatenated survivors. -/
theorem survivors_append (db : Database) (l₁ l₂ : List Selection) :
    survivors db (l₁ ++ l₂) = survivors db l₁ ++ survivors db l₂ := by
  unfold survivors
  exact List.filter_append _ _

/-- The selection loop produces, in input order, one entry per
surviving selection in each accumulated list: the sorted unweighted
series, the `category_3` label, the first resolved identifier, and the
weighted series. -/
theorem processLoop_eq (db : Database) (selections : List Selection) :
    processLoop db selections =
      ((survivors db selections).map (fun s => List.insertionSort rowLe (fetchedSeries db s)),
       (survivors db selections).map (fun s => s.category_3),
       (survivors db selections).map (firstId db),
       (survivors db selections).map
         (fun s => weightSeries s.weight_percent (fetchedSeries db s))) := by
  induction selections with
  | nil => rfl
  | cons s rest ih =>
    rw [survivors_cons]
    by_cases h : (fetch_series_data db s.category_2 s.category_3).isEmpty
    · rw [if_pos h]
      unfold processLoop
      rw [if_pos h]
      exact ih
    · rw [if_neg h]
      unfold processLoop
      rw [if_neg h]
      rw [ih]
      rfl

/-- `process_data`, fully characterised: the composite aggregates the
weighted series of the surviving selections, and the three parallel
lists are maps over the surviving selections in input order. -/
theorem process_data_eq (db : Database) (selections : List Selection) :
    process_data db selections =
      (aggregate ((survivors db selections).map
          (fun s => weightSeries s.weight_percent (fetchedSeries db s))),
       (survivors db selections).map (fun s => List.insertionSort rowLe (fetchedSeries db s)),
       (survivors db selections).map (fun s => s.category_3),
       (survivors db selections).map (firstId db)) := by
  unfold process_data
  rw [processLoop_eq]

/-- Permuting a list of frames permutes their concatenation. -/
theorem flatten_perm {α : Type} {l₁ l₂ : List (List α)} (h : List.Perm l₁ l₂) :
    List.Perm l₁.flatten l₂.flatten := by
  induction h with
  | nil => exact List.Perm.refl _
  | cons x _ ih =>
    simp only [List.flatten_cons]
    exact ih.append_left x
  | swap x y l =>
    simp only [List.flatten_cons]
    rw [← List.append_assoc, ← List.append_assoc]
    exact List.perm_append_comm.append_right _
  | trans _ _ ih1 ih2 => exact ih1.trans ih2

/-- Group sums ignore row order. -/
theorem sumAt_congr_perm {rows rows' : List Row} (h : List.Perm rows rows')
    (d : Date) : sumAt rows d = sumAt rows' d :=
  ((h.filter _).map _).sum_eq

/-- The sorted deduplicated date column ignores row order. -/
theorem sortedDates_congr_perm {rows rows' : List Row} (h : List.Perm rows rows') :
    List.insertionSort Date.le ((rows.map Prod.fst).dedup) =
      List.insertionSort Date.le ((rows'.map Prod.fst).dedup) := by
  exact List.eq_of_perm_of_sorted
    ((List.perm_insertionSort _ _).trans
      (((h.map Prod.fst).dedup).trans (List.perm_insertionSort _ _).symm))
    (List.sorted_insertionSort _ _) (List.sorted_insertionSort _ _)

/-- Grouping-and-summing ignores row order. -/
theorem groupbySum_congr_perm {rows rows' : List Row} (h : List.Perm rows rows') :
    groupbySum rows = groupbySum rows' := by
  unfold groupbySum
  rw [sortedDates_congr_perm h]
  exact List.map_congr_left (fun d _ => by rw [sumAt_congr_perm h])

/-- The running maximum over a date list is an upper bound of the
accumulator and of every list element. -/
theorem foldl_dmax_le (l : List Date) (acc : Date) :
    Date.le acc (l.foldl (fun m d => if Date.le m d then d else m) acc) ∧
      ∀ d ∈ l, Date.le d (l.foldl (fun m d => if Date.le m d then d else m) acc) := by
  induction l generalizing acc with
  | nil =>
    refine ⟨Date.le_refl' acc, ?_⟩
    intro d hd
    exact absurd hd (List.not_mem_nil d)
  | cons x xs ih =>
    simp only [List.foldl_cons]
    obtain ⟨h1, h2⟩ := ih (if Date.le acc x then x else acc)
    have hacc : Date.le acc (if Date.le acc x then x else acc) := by
      by_cases hax : Date.le acc x
      · rw [if_pos hax]; exact hax
      · rw [if_neg hax]; exact Date.le_refl' acc
    have hx : Date.le x (if Date.le acc x then x else acc) := by
      by_cases hax : Date.le acc x
      · rw [if_pos hax]; exact Date.le_refl' x
      · rw [if_neg hax]
        rcases Date.le_total' x acc with hxa | hxa
        · exact hxa
        · exact absurd hxa hax
    refine ⟨Date.le_trans' hacc h1, ?_⟩
    intro d hd
    rcases List.mem_cons.1 hd with rfl | hd'
    · exact Date.le_trans' hx h1
    · exact h2 d hd'

/-- The running maximum over a date list is the accumulator or a list
element. -/
theorem foldl_dmax_mem (l : List Date) (acc : Date) :
    l.foldl (fun m d => if Date.le m d then d else m) acc = acc ∨
      l.foldl (fun m d => if Date.le m d then d else m) acc ∈ l := by
  induction l generalizing acc with
  | nil => exact Or.inl rfl
  | cons x xs ih =>
    simp only [List.foldl_cons]
    rcases ih (if Date.le acc x then x else acc) with h | h
    · rw [h]
      by_cases hax : Date.le acc x
      · rw [if_pos hax]
        exact Or.inr (List.mem_cons_self x xs)
      · rw [if_neg hax]
        exact Or.inl rfl
    · exact Or.inr (List.mem_cons_of_mem x h)

/-- `colMax` of a non-empty frame is the maximum of its date column. -/
theorem colMax_spec {rows : List Row} (h : rows ≠ []) :
    colMax rows ∈ rows.map Prod.fst ∧
      ∀ d ∈ rows.map Prod.fst, Date.le d (colMax rows) := by
  rcases rows with _ | ⟨r, rest⟩
  · exact absurd rfl h
  · show (rest.map Prod.fst).foldl (fun acc d => if Date.le acc d then d else acc) r.1 ∈ _ ∧ _
    constructor
    · rcases foldl_dmax_mem (rest.map Prod.fst) r.1 with h1 | h1
      · rw [h1, List.map_cons]
        exact List.mem_cons_self _ _
      · rw [List.map_cons]
        exact List.mem_cons_of_mem _ h1
    · intro d hd
      rw [List.map_cons, List.mem_cons] at hd
      obtain ⟨hacc, hall⟩ := foldl_dmax_le (rest.map Prod.fst) r.1
      rcases hd with rfl | hd'
      · exact hacc
      · exact hall d hd'

/-! ## Claim theorems -/

/-- C2: for an empty selection set, or one in which every selection's
resolution returns zero identifiers, `process_data` returns the empty
composite (`pd.DataFrame()`) and empty individual-series, label and
identifier lists.  (`process_data` is modelled as a total function, so
no exception is possible on this path.) -/
theorem c2_empty_selection_set_all_outputs_empty
    (db : Database) (selections : List Selection)
    (h : ∀ s ∈ selections, fetch_series_data db s.category_2 s.category_3 = []) :
    process_data db selections = (AggFrame.emptyFrame, [], [], []) := by
  rw [process_data_eq]
  have hsurv : survivors db selections = [] := by
    unfold survivors
    rw [List.filter_eq_nil_iff]
    intro s hs
    simp [h s hs]
  rw [hsurv]
  rfl

/-- C2 witness: one selection that resolves to nothing. -/
theorem c2_empty_selection_set_all_outputs_empty_witness :
    (∀ s ∈ [selSteel], fetch_series_data dbNoSeries s.category_2 s.category_3 = []) ∧
    process_data dbNoSeries [selSteel] = (AggFrame.emptyFrame, [], [], []) :=
  ⟨fun _ _ => rfl,
   c2_empty_selection_set_all_outputs_empty dbNoSeries [selSteel] (fun _ _ => rfl)⟩

/-- C4: a selection whose resolution returns zero identifiers is
dropped silently: `process_data` on a selection list containing it
returns exactly the outputs for the list without it (no error, no entry
in any of the four outputs). -/
theorem c4_unresolved_selection_dropped_silently
    (db : Database) (pre post : List Selection) (s : Selection)
    (h : fetch_series_data db s.category_2 s.category_3 = []) :
    process_data db (pre ++ s :: post) = process_data db (pre ++ post) := by
  rw [process_data_eq, process_data_eq]
  have hsurv : survivors db (pre ++ s :: post) = survivors db (pre ++ post) := by
    rw [survivors_append, survivors_append, survivors_cons, if_pos (by simp [h])]
  rw [hsurv]

/-- C4 witness: a selection with no matching series, between the two
scenario selections. -/
theorem c4_unresolved_selection_dropped_silently_witness :
    fetch_series_data dbScenario "Plastics" "Resin" = [] ∧
    process_data dbScenario [selSteel, ⟨"Plastics", "Resin", 10⟩, ⟨"Energy", "Oil", 40⟩] =
      process_data dbScenario [selSteel, ⟨"Energy", "Oil", 40⟩] :=
  ⟨by decide,
   c4_unresolved_selection_dropped_silently dbScenario [selSteel]
     [⟨"Energy", "Oil", 40⟩] ⟨"Plastics", "Resin", 10⟩ (by decide)⟩

/-- C7: the aggregation step is order-independent: permuting the list
of weighted series yields an identical composite (same dates, same
values). -/
theorem c7_aggregation_order_independent
    (dfs dfs' : List TimeSeries) (h : List.Perm dfs dfs') :
    aggregate dfs = aggregate dfs' := by
  unfold aggregate
  have hemp : dfs.isEmpty = dfs'.isEmpty := by
    rcases dfs with _ | ⟨a, tl⟩
    · rcases dfs' with _ | ⟨b, tl'⟩
      · rfl
      · exact absurd h.length_eq (by simp)
    · rcases dfs' with _ | ⟨b, tl'⟩
      · exact absurd h.length_eq (by simp)
      · rfl
  rw [hemp]
  by_cases he : dfs'.isEmpty = true
  · rw [if_pos he, if_pos he]
  · rw [if_neg he, if_neg he, groupbySum_congr_perm (flatten_perm h)]

/-- C7 witness: swapping two concrete weighted frames. -/
theorem c7_aggregation_order_independent_witness :
    List.Perm
      [[((⟨2021, 1, 1⟩ : Date), (6 : ℚ)), (⟨2021, 2, 1⟩, 7)], [(⟨2021, 1, 1⟩, 8)]]
      [[((⟨2021, 1, 1⟩ : Date), (8 : ℚ))], [(⟨2021, 1, 1⟩, 6), (⟨2021, 2, 1⟩, 7)]] ∧
    aggregate [[((⟨2021, 1, 1⟩ : Date), (6 : ℚ)), (⟨2021, 2, 1⟩, 7)], [(⟨2021, 1, 1⟩, 8)]] =
      aggregate [[((⟨2021, 1, 1⟩ : Date), (8 : ℚ))], [(⟨2021, 1, 1⟩, 6), (⟨2021, 2, 1⟩, 7)]] :=
  ⟨by decide,
   c7_aggregation_order_independent _ _ (by decide)⟩

/-- C8: the three per-selection outputs of `process_data` have equal
length — the number of surviving selections — and are parallel: entry
`i` of each is derived from surviving selection `i` in input order; the
label is its `category_3`, the identifier its first resolved
`series_id`, and the individual series its fetched series sorted by
date ascending, unweighted. -/
theorem c8_parallel_outputs_consistent
    (db : Database) (selections : List Selection) :
    (process_data db selections).2.1.length = (survivors db selections).length ∧
    (process_data db selections).2.2.1.length = (survivors db selections).length ∧
    (process_data db selections).2.2.2.length = (survivors db selections).length ∧
    (process_data db selections).2.1 =
      (survivors db selections).map
        (fun s => List.insertionSort rowLe (fetchedSeries db s)) ∧
    (process_data db selections).2.2.1 =
      (survivors db selections).map (fun s => s.category_3) ∧
    (process_data db selections).2.2.2 =
      (survivors db selections).map (firstId db) := by
  rw [process_data_eq]
  exact ⟨List.length_map _ _, List.length_map _ _, List.length_map _ _, rfl, rfl, rfl⟩

/-- C3: only the first resolved identifier of each selection is used.
The identifier list records the first identifiers, and the whole result
of `process_data` is unchanged under any modification of the warehouse
data behind every identifier other than the first of each resolution
list — those identifiers are never fetched. -/
theorem c3_only_first_identifier_used
    (db db' : Database) (selections : List Selection)
    (hsd : db'.series_details = db.series_details)
    (hts : ∀ s ∈ selections, ∀ i rest,
      db.series_details s.category_2 s.category_3 = i :: rest →
      db'.adjusted_2020 i = db.adjusted_2020 i) :
    process_data db' selections = process_data db selections := by
  have hfsd : ∀ c2 c3, fetch_series_data db' c2 c3 = fetch_series_data db c2 c3 := by
    intro c2 c3
    unfold fetch_series_data
    rw [hsd]
  have hsurv : survivors db' selections = survivors db selections := by
    unfold survivors
    have hpred : (fun s : Selection =>
        !(fetch_series_data db' s.category_2 s.category_3).isEmpty) =
        (fun s : Selection =>
          !(fetch_series_data db s.category_2 s.category_3).isEmpty) := by
      funext s
      rw [hfsd]
    rw [hpred]
  have hfetch : ∀ s ∈ survivors db selections,
      fetchedSeries db' s = fetchedSeries db s := by
    intro s hs
    have hmem : s ∈ selections := List.mem_of_mem_filter hs
    have hne := List.of_mem_filter hs
    rcases hcase : fetch_series_data db s.category_2 s.category_3 with _ | ⟨i, rest⟩
    · rw [hcase] at hne
      simp at hne
    · unfold fetchedSeries fetch_timeseries_data
      rw [hfsd, hcase]
      exact hts s hmem i rest hcase
  rw [process_data_eq, process_data_eq, hsurv]
  have h1 : (survivors db selections).map
      (fun s => List.insertionSort rowLe (fetchedSeries db' s)) =
      (survivors db selections).map
        (fun s => List.insertionSort rowLe (fetchedSeries db s)) :=
    List.map_congr_left (fun s hs => by rw [hfetch s hs])
  have h2 : (survivors db selections).map (firstId db') =
      (survivors db selections).map (firstId db) :=
    List.map_congr_left (fun s _ => by unfold firstId; rw [hfsd])
  have h3 : (survivors db selections).map
      (fun s => weightSeries s.weight_percent (fetchedSeries db' s)) =
      (survivors db selections).map
        (fun s => weightSeries s.weight_percent (fetchedSeries db s)) :=
    List.map_congr_left (fun s hs => by rw [hfetch s hs])
  rw [h1, h2, h3]

/-- C3 witness: the resolution returns `["id1", "id2"]`; replacing the
entire series behind `id2` leaves every output of `process_data`
unchanged. -/
theorem c3_only_first_identifier_used_witness :
    dbTwoIdsAlt.series_details = dbTwoIds.series_details ∧
    (∀ s ∈ [selSteel], ∀ i rest,
      dbTwoIds.series_details s.category_2 s.category_3 = i :: rest →
      dbTwoIdsAlt.adjusted_2020 i = dbTwoIds.adjusted_2020 i) ∧
    process_data dbTwoIdsAlt [selSteel] = process_data dbTwoIds [selSteel] := by
  have hts : ∀ s ∈ [selSteel], ∀ i rest,
      dbTwoIds.series_details s.category_2 s.category_3 = i :: rest →
      dbTwoIdsAlt.adjusted_2020 i = dbTwoIds.adjusted_2020 i := by
    intro s _ i rest hir
    have hir' : ["id1", "id2"] = i :: rest := hir
    injection hir' with hi _
    subst hi
    decide
  exact ⟨rfl, hts, c3_only_first_identifier_used dbTwoIds dbTwoIdsAlt [selSteel] rfl hts⟩

/-- C1: for a non-empty set of surviving selections whose fetched
series each have one value per date (the Time Series invariant of spec
§3), the composite returned by `process_data` has exactly one row per
date of the outer union of the surviving series' dates, and its value
on each date is the sum, over the surviving selections, of the fetched
series' value on that date (0 when the series has no row there)
multiplied by `weight_percent / 100`. -/
theorem c1_composite_weighted_outer_union_sum
    (db : Database) (selections : List Selection)
    (hs : survivors db selections ≠ [])
    (hnd : ∀ s ∈ survivors db selections,
      ((fetchedSeries db s).map Prod.fst).Nodup) :
    ((compositeRows (process_data db selections).1).map Prod.fst).Nodup ∧
    (∀ d, d ∈ (compositeRows (process_data db selections).1).map Prod.fst ↔
      ∃ s ∈ survivors db selections, d ∈ (fetchedSeries db s).map Prod.fst) ∧
    (∀ d v, (d, v) ∈ compositeRows (process_data db selections).1 →
      v = ((survivors db selections).map
        (fun s => lookupVal (fetchedSeries db s) d * (s.weight_percent / 100))).sum) := by
  have hw : (survivors db selections).map
      (fun s => weightSeries s.weight_percent (fetchedSeries db s)) ≠ [] := by
    intro hcontra
    exact hs (List.map_eq_nil_iff.1 hcontra)
  have hcomp : (process_data db selections).1 =
      aggregate ((survivors db selections).map
        (fun s => weightSeries s.weight_percent (fetchedSeries db s))) := by
    rw [process_data_eq]
  rw [hcomp]
  refine ⟨aggregate_dates_nodup hw, ?_, ?_⟩
  · intro d
    rw [aggregate_dates_mem hw d]
    constructor
    · rintro ⟨df, hdf, hd⟩
      obtain ⟨s, hsmem, rfl⟩ := List.mem_map.1 hdf
      rw [weightSeries_map_fst] at hd
      exact ⟨s, hsmem, hd⟩
    · rintro ⟨s, hsmem, hd⟩
      exact ⟨weightSeries s.weight_percent (fetchedSeries db s),
        List.mem_map_of_mem _ hsmem, by rw [weightSeries_map_fst]; exact hd⟩
  · intro d v hdv
    have hval := ((mem_aggregate_iff hw d v).1 hdv).2
    rw [sumAt_flatten, List.map_map] at hval
    rw [hval]
    refine congrArg List.sum (List.map_congr_left ?_)
    intro s hsmem
    show sumAt (weightSeries s.weight_percent (fetchedSeries db s)) d = _
    rw [sumAt_weightSeries, sumAt_eq_lookupVal (hnd s hsmem)]

/-- C1 witness: the spec's end-to-end scenario (Steel 60 %, Oil 40 %). -/
theorem c1_composite_weighted_outer_union_sum_witness :
    (survivors dbScenario selScenario ≠ [] ∧
     ∀ s ∈ survivors dbScenario selScenario,
       ((fetchedSeries dbScenario s).map Prod.fst).Nodup) ∧
    (((compositeRows (process_data dbScenario selScenario).1).map Prod.fst).Nodup ∧
     (∀ d, d ∈ (compositeRows (process_data dbScenario selScenario).1).map Prod.fst ↔
       ∃ s ∈ survivors dbScenario selScenario,
         d ∈ (fetchedSeries dbScenario s).map Prod.fst) ∧
     (∀ d v, (d, v) ∈ compositeRows (process_data dbScenario selScenario).1 →
       v = ((survivors dbScenario selScenario).map
         (fun s => lookupVal (fetchedSeries dbScenario s) d *
           (s.weight_percent / 100))).sum)) :=
  ⟨⟨by decide, by decide⟩,
   c1_composite_weighted_outer_union_sum dbScenario selScenario
     (by decide) (by decide)⟩

/-- The end-to-end scenario of spec §8.7, checked concretely: the
composite equals {2021-01: 14, 2021-02: 16}. -/
theorem scenario_composite_values :
    compositeRows (process_data dbScenario selScenario).1 =
      [(⟨2021, 1, 1⟩, 14), (⟨2021, 2, 1⟩, 16)] := by
  have h1 : survivors dbScenario selScenario = selScenario := by decide
  rw [show (process_data dbScenario selScenario).1 =
      aggregate ((survivors dbScenario selScenario).map
        (fun s => weightSeries s.weight_percent (fetchedSeries dbScenario s))) from by
    rw [process_data_eq]]
  rw [h1]
  show compositeRows (aggregate _) = _
  simp only [selScenario, aggregate, weightSeries, fetchedSeries, fetch_timeseries_data,
    fetch_series_data, dbScenario, compositeRows]
  norm_num
  simp [groupbySum, sumAt, List.insertionSort, List.orderedInsert, List.dedup,
    List.pwFilter, Date.le, rowLe, compositeRows]
  norm_num

/-- C5 (code bug): with zero surviving selections `process_data`
returns the column-less `pd.DataFrame()`, and `generate_plot` then
evaluates `aggregated_index['observation_date']`, which raises
`KeyError` — it does not handle the nothing-to-plot case. -/
theorem c5_generate_plot_raises_on_empty_composite :
    (process_data dbNoSeries []).1 = AggFrame.emptyFrame ∧
    generate_plot_data (process_data dbNoSeries []).1 (process_data dbNoSeries []).2.1 =
      Except.error "KeyError: observation_date" :=
  ⟨rfl, rfl⟩

/-- C6: on a composite with at least one row, the plot-time window
keeps exactly the rows whose date is at least the calendar-aware
`max(observation_date) - 5 years`; the kept rows are a sublist of the
input — the filter builds a new frame and the full input series are
unchanged (on the individual series the same boundary, computed from
the composite's maximum, is applied). -/
theorem c6_five_year_window_is_nondestructive_filter
    (rows : List Row) (inds : List TimeSeries) (h : rows ≠ []) :
    generate_plot_data (AggFrame.table rows) inds =
      Except.ok
        (rows.filter (fun r => decide (Date.le (subYears5 (colMax rows)) r.1)),
         inds.map (fun ts =>
           ts.filter (fun r => decide (Date.le (subYears5 (colMax rows)) r.1)))) ∧
    (∀ r : Row,
      r ∈ rows.filter (fun r => decide (Date.le (subYears5 (colMax rows)) r.1)) ↔
        r ∈ rows ∧ Date.le (subYears5 (colMax rows)) r.1) ∧
    (rows.filter (fun r => decide (Date.le (subYears5 (colMax rows)) r.1))).Sublist rows ∧
    colMax rows ∈ rows.map Prod.fst ∧
    (∀ d ∈ rows.map Prod.fst, Date.le d (colMax rows)) ∧
    (∀ ts ∈ inds,
      (ts.filter (fun r => decide (Date.le (subYears5 (colMax rows)) r.1))).Sublist ts) := by
  refine ⟨rfl, ?_, List.filter_sublist _, (colMax_spec h).1, (colMax_spec h).2,
    fun ts _ => List.filter_sublist _⟩
  intro r
  rw [List.mem_filter]
  simp only [decide_eq_true_eq]

/-- C6 witness: a composite spanning ten years; the window boundary is
2020-03-01 and only the last two rows survive. -/
theorem c6_five_year_window_is_nondestructive_filter_witness :
    ([((⟨2015, 1, 1⟩ : Date), (1 : ℚ)), (⟨2022, 6, 1⟩, 2), (⟨2025, 3, 1⟩, 3)] ≠
      ([] : List Row)) ∧
    (generate_plot_data
        (AggFrame.table [((⟨2015, 1, 1⟩ : Date), (1 : ℚ)), (⟨2022, 6, 1⟩, 2), (⟨2025, 3, 1⟩, 3)])
        [[((⟨2014, 1, 1⟩ : Date), (5 : ℚ))]] =
      Except.ok
        (([((⟨2015, 1, 1⟩ : Date), (1 : ℚ)), (⟨2022, 6, 1⟩, 2), (⟨2025, 3, 1⟩, 3)]).filter
          (fun r => decide (Date.le (subYears5 (colMax
            [((⟨2015, 1, 1⟩ : Date), (1 : ℚ)), (⟨2022, 6, 1⟩, 2), (⟨2025, 3, 1⟩, 3)])) r.1)),
         ([[((⟨2014, 1, 1⟩ : Date), (5 : ℚ))]]).map (fun ts =>
           ts.filter (fun r => decide (Date.le (subYears5 (colMax
             [((⟨2015, 1, 1⟩ : Date), (1 : ℚ)), (⟨2022, 6, 1⟩, 2), (⟨2025, 3, 1⟩, 3)])) r.1)))) ∧
      (∀ r : Row,
        r ∈ ([((⟨2015, 1, 1⟩ : Date), (1 : ℚ)), (⟨2022, 6, 1⟩, 2), (⟨2025, 3, 1⟩, 3)]).filter
            (fun r => decide (Date.le (subYears5 (colMax
              [((⟨2015, 1, 1⟩ : Date), (1 : ℚ)), (⟨2022, 6, 1⟩, 2), (⟨2025, 3, 1⟩, 3)])) r.1)) ↔
          r ∈ [((⟨2015, 1, 1⟩ : Date), (1 : ℚ)), (⟨2022, 6, 1⟩, 2), (⟨2025, 3, 1⟩, 3)] ∧
            Date.le (subYears5 (colMax
              [((⟨2015, 1, 1⟩ : Date), (1 : ℚ)), (⟨2022, 6, 1⟩, 2), (⟨2025, 3, 1⟩, 3)])) r.1) ∧
      (([((⟨2015, 1, 1⟩ : Date), (1 : ℚ)), (⟨2022, 6, 1⟩, 2), (⟨2025, 3, 1⟩, 3)]).filter
          (fun r => decide (Date.le (subYears5 (colMax
            [((⟨2015, 1, 1⟩ : Date), (1 : ℚ)), (⟨2022, 6, 1⟩, 2), (⟨2025, 3, 1⟩, 3)])) r.1))).Sublist
        [((⟨2015, 1, 1⟩ : Date), (1 : ℚ)), (⟨2022, 6, 1⟩, 2), (⟨2025, 3, 1⟩, 3)] ∧
      colMax [((⟨2015, 1, 1⟩ : Date), (1 : ℚ)), (⟨2022, 6, 1⟩, 2), (⟨2025, 3, 1⟩, 3)] ∈
        ([((⟨2015, 1, 1⟩ : Date), (1 : ℚ)), (⟨2022, 6, 1⟩, 2), (⟨2025, 3, 1⟩, 3)]).map Prod.fst ∧
      (∀ d ∈ ([((⟨2015, 1, 1⟩ : Date), (1 : ℚ)), (⟨2022, 6, 1⟩, 2), (⟨2025, 3, 1⟩, 3)]).map Prod.fst,
        Date.le d (colMax [((⟨2015, 1, 1⟩ : Date), (1 : ℚ)), (⟨2022, 6, 1⟩, 2), (⟨2025, 3, 1⟩, 3)])) ∧
      (∀ ts ∈ [[((⟨2014, 1, 1⟩ : Date), (5 : ℚ))]],
        (ts.filter (fun r => decide (Date.le (subYears5 (colMax
          [((⟨2015, 1, 1⟩ : Date), (1 : ℚ)), (⟨2022, 6, 1⟩, 2), (⟨2025, 3, 1⟩, 3)])) r.1))).Sublist ts)) :=
  ⟨by decide,
   c6_five_year_window_is_nondestructive_filter
     [((⟨2015, 1, 1⟩ : Date), (1 : ℚ)), (⟨2022, 6, 1⟩, 2), (⟨2025, 3, 1⟩, 3)]
     [[((⟨2014, 1, 1⟩ : Date), (5 : ℚ))]] (by decide)⟩

/-- C10: a selection with weight 0 that resolves is not dropped: it
keeps its position in the individual-series, label and identifier
outputs, every date of its series appears on the composite's date axis,
and every composite value equals the sum of the other surviving
series' weighted contributions — the zero-weight series contributes
exactly 0. -/
theorem c10_zero_weight_selection_kept_contributes_zero
    (db : Database) (pre post : List Selection) (s : Selection)
    (hw : s.weight_percent = 0)
    (hres : fetch_series_data db s.category_2 s.category_3 ≠ []) :
    ((process_data db (pre ++ s :: post)).2.1 =
      (survivors db pre).map (fun t => List.insertionSort rowLe (fetchedSeries db t)) ++
        List.insertionSort rowLe (fetchedSeries db s) ::
          (survivors db post).map (fun t => List.insertionSort rowLe (fetchedSeries db t))) ∧
    ((process_data db (pre ++ s :: post)).2.2.1 =
      (survivors db pre).map (fun t => t.category_3) ++
        s.category_3 :: (survivors db post).map (fun t => t.category_3)) ∧
    ((process_data db (pre ++ s :: post)).2.2.2 =
      (survivors db pre).map (firstId db) ++
        firstId db s :: (survivors db post).map (firstId db)) ∧
    (∀ d ∈ (fetchedSeries db s).map Prod.fst,
      d ∈ (compositeRows (process_data db (pre ++ s :: post)).1).map Prod.fst) ∧
    (∀ d v, (d, v) ∈ compositeRows (process_data db (pre ++ s :: post)).1 →
      v = ((survivors db (pre ++ post)).map
        (fun t => sumAt (fetchedSeries db t) d * (t.weight_percent / 100))).sum) := by
  have hresb : ¬(fetch_series_data db s.category_2 s.category_3).isEmpty = true := by
    rw [List.isEmpty_iff]
    exact hres
  have hsplit : survivors db (pre ++ s :: post) =
      survivors db pre ++ s :: survivors db post := by
    rw [survivors_append, survivors_cons, if_neg hresb]
  have hout := process_data_eq db (pre ++ s :: post)
  have hwdfs : (survivors db (pre ++ s :: post)).map
      (fun t => weightSeries t.weight_percent (fetchedSeries db t)) =
      (survivors db pre).map (fun t => weightSeries t.weight_percent (fetchedSeries db t)) ++
        weightSeries s.weight_percent (fetchedSeries db s) ::
          (survivors db post).map (fun t => weightSeries t.weight_percent (fetchedSeries db t)) := by
    rw [hsplit, List.map_append, List.map_cons]
  have hwne : (survivors db (pre ++ s :: post)).map
      (fun t => weightSeries t.weight_percent (fetchedSeries db t)) ≠ [] := by
    rw [hwdfs]
    intro hc
    exact List.cons_ne_nil _ _ (List.append_eq_nil.1 hc).2
  have hcomp : (process_data db (pre ++ s :: post)).1 =
      aggregate ((survivors db (pre ++ s :: post)).map
        (fun t => weightSeries t.weight_percent (fetchedSeries db t))) := by
    rw [hout]
  refine ⟨?_, ?_, ?_, ?_, ?_⟩
  · rw [hout, hsplit]
    simp [List.map_append]
  · rw [hout, hsplit]
    simp [List.map_append]
  · rw [hout, hsplit]
    simp [List.map_append]
  · intro d hd
    rw [hcomp, aggregate_dates_mem hwne d]
    refine ⟨weightSeries s.weight_percent (fetchedSeries db s), ?_, ?_⟩
    · rw [hwdfs]
      exact List.mem_append_right _ (List.mem_cons_self _ _)
    · rw [weightSeries_map_fst]
      exact hd
  · intro d v hdv
    rw [hcomp] at hdv
    have hval := ((mem_aggregate_iff hwne d v).1 hdv).2
    rw [sumAt_flatten, List.map_map] at hval
    have hmid : ((fun df => sumAt df d) ∘
        fun t => weightSeries t.weight_percent (fetchedSeries db t)) s = 0 := by
      show sumAt (weightSeries s.weight_percent (fetchedSeries db s)) d = 0
      rw [sumAt_weightSeries, hw]
      norm_num
    rw [hsplit, List.map_append, List.map_cons, List.sum_append, List.sum_cons,
      hmid, zero_add] at hval
    rw [survivors_append, List.map_append, List.sum_append, hval]
    have hterm : ∀ l : List Selection,
        (l.map ((fun df => sumAt df d) ∘
          fun t => weightSeries t.weight_percent (fetchedSeries db t))).sum =
          (l.map (fun t => sumAt (fetchedSeries db t) d * (t.weight_percent / 100))).sum :=
      fun l => congrArg List.sum (List.map_congr_left (fun t _ => by
        show sumAt (weightSeries t.weight_percent (fetchedSeries db t)) d = _
        rw [sumAt_weightSeries]))
    rw [hterm, hterm]

/-- C10 witness: Steel at weight 0 next to Oil at weight 40. -/
theorem c10_zero_weight_selection_kept_contributes_zero_witness :
    ((⟨"Metals", "Steel", 0⟩ : Selection).weight_percent = 0 ∧
     fetch_series_data dbScenario "Metals" "Steel" ≠ []) ∧
    ((process_data dbScenario ([] ++ (⟨"Metals", "Steel", 0⟩ : Selection) :: [⟨"Energy", "Oil", 40⟩])).2.1 =
      (survivors dbScenario []).map
          (fun t => List.insertionSort rowLe (fetchedSeries dbScenario t)) ++
        List.insertionSort rowLe (fetchedSeries dbScenario ⟨"Metals", "Steel", 0⟩) ::
          (survivors dbScenario [⟨"Energy", "Oil", 40⟩]).map
            (fun t => List.insertionSort rowLe (fetchedSeries dbScenario t)) ∧
     (process_data dbScenario ([] ++ (⟨"Metals", "Steel", 0⟩ : Selection) :: [⟨"Energy", "Oil", 40⟩])).2.2.1 =
      (survivors dbScenario []).map (fun t => t.category_3) ++
        (⟨"Metals", "Steel", 0⟩ : Selection).category_3 ::
          (survivors dbScenario [⟨"Energy", "Oil", 40⟩]).map (fun t => t.category_3) ∧
     (process_data dbScenario ([] ++ (⟨"Metals", "Steel", 0⟩ : Selection) :: [⟨"Energy", "Oil", 40⟩])).2.2.2 =
      (survivors dbScenario []).map (firstId dbScenario) ++
        firstId dbScenario ⟨"Metals", "Steel", 0⟩ ::
          (survivors dbScenario [⟨"Energy", "Oil", 40⟩]).map (firstId dbScenario) ∧
     (∀ d ∈ (fetchedSeries dbScenario ⟨"Metals", "Steel", 0⟩).map Prod.fst,
       d ∈ (compositeRows (process_data dbScenario
         ([] ++ (⟨"Metals", "Steel", 0⟩ : Selection) :: [⟨"Energy", "Oil", 40⟩])).1).map Prod.fst) ∧
     (∀ d v, (d, v) ∈ compositeRows (process_data dbScenario
         ([] ++ (⟨"Metals", "Steel", 0⟩ : Selection) :: [⟨"Energy", "Oil", 40⟩])).1 →
       v = ((survivors dbScenario ([] ++ [⟨"Energy", "Oil", 40⟩])).map
         (fun t => sumAt (fetchedSeries dbScenario t) d * (t.weight_percent / 100))).sum)) :=
  ⟨⟨rfl, by decide⟩,
   c10_zero_weight_selection_kept_contributes_zero dbScenario [] [⟨"Energy", "Oil", 40⟩]
     ⟨"Metals", "Steel", 0⟩ rfl (by decide)⟩

/-- C9 counterexample: on a warehouse whose repository calls raise,
`process_data` for one selection propagates the failure instead of
producing the dropped-selection result (which would be the empty
composite and empty lists). -/
theorem c9_counterexample_failure_not_treated_as_zero_ids :
    process_dataE dbAllFail [selSteel] = Except.error "connection failure" ∧
    process_dataE dbAllFail [selSteel] ≠
      Except.ok (AggFrame.emptyFrame, [], [], []) := by
  refine ⟨rfl, ?_⟩
  intro hcontra
  rw [show process_dataE dbAllFail [selSteel] =
    Except.error "connection failure" from rfl] at hcontra
  exact Except.noConfusion hcontra

/-- Reduction of the fallible loop on a cons cell: the head selection's
resolution call runs first; on a non-empty result its fetch call runs,
and only then the rest of the loop. -/
theorem processLoopE_cons (db : FallibleDb) (s : Selection) (rest : List Selection) :
    processLoopE db (s :: rest) =
      (db.series_details s.category_2 s.category_3).bind fun series_id =>
        if series_id.isEmpty then processLoopE db rest
        else
          (db.adjusted_2020 series_id.headI).bind fun timeseries_data =>
            (processLoopE db rest).bind fun acc =>
              .ok (List.insertionSort rowLe timeseries_data :: acc.1,
                   s.category_3 :: acc.2.1,
                   series_id.headI :: acc.2.2.1,
                   weightSeries s.weight_percent timeseries_data :: acc.2.2.2) :=
  rfl

/-- Binding a success applies the continuation. -/
theorem except_bind_ok {ε α β : Type} (a : α) (f : α → Except ε β) :
    (Except.ok a).bind f = f a :=
  rfl

/-- Binding a raised error keeps the error. -/
theorem except_bind_error {ε α β : Type} (e : ε) (f : α → Except ε β) :
    (Except.error e).bind f = Except.error e :=
  rfl

/-- If every repository call of a prefix succeeds and the rest of the
loop raises, the whole loop raises that same error: the first raised
error is the one that propagates. -/
theorem processLoopE_append_error (db : FallibleDb) (l₁ l₂ : List Selection)
    (acc : List TimeSeries × List String × List String × List TimeSeries) (e : String)
    (h₁ : processLoopE db l₁ = .ok acc) (h₂ : processLoopE db l₂ = .error e) :
    processLoopE db (l₁ ++ l₂) = .error e := by
  induction l₁ generalizing acc with
  | nil => exact h₂
  | cons x l₁ ih =>
    rw [processLoopE_cons] at h₁
    show processLoopE db (x :: (l₁ ++ l₂)) = Except.error e
    rw [processLoopE_cons]
    cases hx : db.series_details x.category_2 x.category_3 with
    | error e' =>
      rw [hx, except_bind_error] at h₁
      exact Except.noConfusion h₁
    | ok ids =>
      rw [hx, except_bind_ok] at h₁
      rw [except_bind_ok]
      by_cases hemp : ids.isEmpty
      · rw [if_pos hemp] at h₁
        rw [if_pos hemp]
        exact ih acc h₁
      · rw [if_neg hemp] at h₁
        rw [if_neg hemp]
        cases hfetch : db.adjusted_2020 ids.headI with
        | error e' =>
          rw [hfetch, except_bind_error] at h₁
          exact Except.noConfusion h₁
        | ok ts =>
          rw [hfetch, except_bind_ok] at h₁
          rw [except_bind_ok]
          cases hrec : processLoopE db l₁ with
          | error e' =>
            rw [hrec, except_bind_error] at h₁
            exact Except.noConfusion h₁
          | ok acc₁ =>
            rw [ih acc₁ hrec, except_bind_error]

/-- C9 amended: when a repository call made during the computation
raises — the resolution call of any selection, or the time-series
fetch of any selection whose resolution returned identifiers — and
every repository call before it succeeded (otherwise that earlier
failure is the one raised), `process_data` propagates the error as a
fatal failure: the selection is not treated as having zero identifiers
and the computation does not continue to the later selections. -/
theorem c9_amended_repository_failure_propagates
    (db : FallibleDb) (pre post : List Selection) (s : Selection) (e : String)
    (acc : List TimeSeries × List String × List String × List TimeSeries)
    (hpre : processLoopE db pre = .ok acc)
    (hfail : db.series_details s.category_2 s.category_3 = .error e ∨
      ∃ ids, db.series_details s.category_2 s.category_3 = .ok ids ∧ ids ≠ [] ∧
        db.adjusted_2020 ids.headI = .error e) :
    process_dataE db (pre ++ s :: post) = Except.error e := by
  have hhead : processLoopE db (s :: post) = .error e := by
    rw [processLoopE_cons]
    rcases hfail with hres | ⟨ids, hok, hne, hfe⟩
    · rw [hres, except_bind_error]
    · rw [hok, except_bind_ok]
      rcases ids with _ | ⟨i, irest⟩
      · exact absurd rfl hne
      · rw [if_neg (by simp), hfe, except_bind_error]
  have hloop : processLoopE db (pre ++ s :: post) = .error e :=
    processLoopE_append_error db pre (s :: post) acc e hpre hhead
  unfold process_dataE
  rw [hloop]
  rfl

/-- C9 amended witness: the first selection's two repository calls
succeed, the second selection resolves to `O1` whose time-series fetch
raises, and a third selection follows — the error propagates and the
computation aborts. -/
theorem c9_amended_repository_failure_propagates_witness :
    (processLoopE dbLateFail [selSteel] =
      Except.ok ([[((⟨2021, 1, 1⟩ : Date), (10 : ℚ))]], ["Steel"], ["S1"],
        [weightSeries 60 [(⟨2021, 1, 1⟩, 10)]]) ∧
     (dbLateFail.series_details "Energy" "Oil" = .error "read timeout" ∨
      ∃ ids, dbLateFail.series_details "Energy" "Oil" = .ok ids ∧ ids ≠ [] ∧
        dbLateFail.adjusted_2020 ids.headI = .error "read timeout")) ∧
    process_dataE dbLateFail ([selSteel] ++ (⟨"Energy", "Oil", 40⟩ : Selection) :: [selSteel]) =
      Except.error "read timeout" :=
  ⟨⟨rfl, Or.inr ⟨["O1"], rfl, by decide, rfl⟩⟩,
   c9_amended_repository_failure_propagates dbLateFail [selSteel] [selSteel]
     ⟨"Energy", "Oil", 40⟩ "read timeout"
     ([[((⟨2021, 1, 1⟩ : Date), (10 : ℚ))]], ["Steel"], ["S1"],
       [weightSeries 60 [(⟨2021, 1, 1⟩, 10)]])
     rfl (Or.inr ⟨["O1"], rfl, by decide, rfl⟩)⟩

/-- On a warehouse where no call fails, the fallible model agrees with
the total model of `process_data` — the `Except` layer only adds
propagation of raised errors. -/
theorem processLoopE_ofDatabase (db : Database) (selections : List Selection) :
    processLoopE (FallibleDb.ofDatabase db) selections = .ok (processLoop db selections) := by
  induction selections with
  | nil => rfl
  | cons s rest ih =>
    show (if (db.series_details s.category_2 s.category_3).isEmpty then
        processLoopE (FallibleDb.ofDatabase db) rest
      else
        (processLoopE (FallibleDb.ofDatabase db) rest).bind fun acc =>
          .ok (List.insertionSort rowLe
                (db.adjusted_2020 (db.series_details s.category_2 s.category_3).headI) :: acc.1,
              s.category_3 :: acc.2.1,
              (db.series_details s.category_2 s.category_3).headI :: acc.2.2.1,
              weightSeries s.weight_percent
                (db.adjusted_2020 (db.series_details s.category_2 s.category_3).headI) :: acc.2.2.2)) = _
    by_cases h : (db.series_details s.category_2 s.category_3).isEmpty
    · rw [if_pos h, ih]
      show _ = Except.ok (if (db.series_details s.category_2 s.category_3).isEmpty then
          processLoop db rest
        else
          (List.insertionSort rowLe
              (db.adjusted_2020 (db.series_details s.category_2 s.category_3).headI) ::
                (processLoop db rest).1,
            s.category_3 :: (processLoop db rest).2.1,
            (db.series_details s.category_2 s.category_3).headI :: (processLoop db rest).2.2.1,
            weightSeries s.weight_percent
              (db.adjusted_2020 (db.series_details s.category_2 s.category_3).headI) ::
                (processLoop db rest).2.2.2))
      rw [if_pos h]
    · rw [if_neg h, ih]
      show _ = Except.ok (if (db.series_details s.category_2 s.category_3).isEmpty then
          processLoop db rest
        else
          (List.insertionSort rowLe
              (db.adjusted_2020 (db.series_details s.category_2 s.category_3).headI) ::
                (processLoop db rest).1,
            s.category_3 :: (processLoop db rest).2.1,
            (db.series_details s.category_2 s.category_3).headI :: (processLoop db rest).2.2.1,
            weightSeries s.weight_percent
              (db.adjusted_2020 (db.series_details s.category_2 s.category_3).headI) ::
                (processLoop db rest).2.2.2))
      rw [if_neg h]
      rfl

/-- The fallible `process_data` returns exactly the total model's
result when every repository call succeeds. -/
theorem process_dataE_ofDatabase (db : Database) (selections : List Selection) :
    process_dataE (FallibleDb.ofDatabase db) selections =
      .ok (process_data db selections) := by
  unfold process_dataE process_data
  rw [processLoopE_ofDatabase]
  rfl

end CompositeIndex
